import Mathlib

/-!
Verification of the Rex-Sim-Universe-Lab trust aggregation and
certification pipeline. Numeric scores are embedded as rationals; the
components whose Python sources are not included in the repository
snapshot (trust aggregator, quality and tier scorer, omega merger, run
registry) are modelled from the specification, while the UI helpers are
translated from `ui/SimUniverseHeatmap.tsx` and `ui/types.ts`.
-/

namespace SimUniverse

/-- Trust tiers of the governance layer. -/
inductive TrustTier where
  | high
  | normal
  | unknown
  | low
deriving DecidableEq, Repr

/-- Modelled from the spec: `compute_trust_tier_from_failures` of the
Quality and Tier Scorer (the Python module `rex/sim_universe/governance.py`
is not in the snapshot). Once `failure_count ≥ failure_threshold` the tier
becomes (or remains) `low`, overriding `prev_tier`; below the threshold
`prev_tier` passes through unchanged. -/
def compute_trust_tier_from_failures (prev_tier : TrustTier)
    (failure_count failure_threshold : ℕ) : TrustTier :=
  if failure_count ≥ failure_threshold then .low else prev_tier

/-- Modelled from the spec: `simuniverse_quality(mu, faizal) =
0.7 * mu + 0.3 * (1 - faizal)` of the Quality and Tier Scorer (module
absent from the snapshot). -/
def simuniverse_quality (mu faizal : ℚ) : ℚ :=
  0.7 * mu + 0.3 * (1 - faizal)

/-- Configuration of the low-trust heuristic; both thresholds are
configuration inputs. -/
structure TrustConfig where
  mu_min_good : ℚ
  faizal_max_good : ℚ
deriving Repr

/-- The default heuristic thresholds (`mu_min_good=0.4`,
`faizal_max_good=0.7`). -/
def defaultTrustConfig : TrustConfig :=
  { mu_min_good := 0.4, faizal_max_good := 0.7 }

/-- Modelled from the spec: the low-trust heuristic of the Trust
Aggregator (`rex/sim_universe/trust_integration.py` is absent from the
snapshot): a candidate is flagged when `mu_score_avg < mu_min_good` and
`faizal_score_avg > faizal_max_good`. -/
def lowTrustHeuristic (cfg : TrustConfig) (mu_avg faizal_avg : ℚ) : Bool :=
  decide (mu_avg < cfg.mu_min_good ∧ faizal_avg > cfg.faizal_max_good)

/-- One evidence point for a (candidate, world) pair. -/
structure ScenarioScore where
  candidate_id : String
  world_id : String
  mu_score : ℚ
  faizal_score : ℚ
  mean_undecidability_index : ℚ
  energy_feasibility : ℚ
deriving Repr, DecidableEq

/-- Per-candidate aggregate emitted by the Trust Aggregator. -/
structure ToeTrustSummary where
  candidate_id : String
  mu_score_avg : ℚ
  faizal_score_avg : ℚ
  undecidability_avg : ℚ
  energy_feasibility_avg : ℚ
  low_trust_flag : Bool
  sample_count : ℕ
deriving Repr, DecidableEq

/-- Arithmetic mean of a list of rationals (0 on the empty list). -/
def listMean (xs : List ℚ) : ℚ :=
  xs.sum / xs.length

/-- The group of scores contributed by one candidate. -/
def groupFor (scores : List ScenarioScore) (cid : String) : List ScenarioScore :=
  scores.filter (fun s => s.candidate_id == cid)

/-- Candidate ids in insertion order of first appearance. -/
def insertionOrder : List String → List String
  | [] => []
  | c :: rest => c :: (insertionOrder rest).filter (fun d => d != c)

/-- Modelled from the spec: the per-candidate reduction of the Trust
Aggregator (`rex/sim_universe/trust_integration.py` is absent from the
snapshot): the four running averages over the candidate group, the
low-trust flag from the heuristic, and the sample count. -/
def summarize (cfg : TrustConfig) (scores : List ScenarioScore)
    (cid : String) : ToeTrustSummary :=
  let g := groupFor scores cid
  let mu_avg := listMean (g.map (fun s => s.mu_score))
  let fz_avg := listMean (g.map (fun s => s.faizal_score))
  { candidate_id := cid
    mu_score_avg := mu_avg
    faizal_score_avg := fz_avg
    undecidability_avg := listMean (g.map (fun s => s.mean_undecidability_index))
    energy_feasibility_avg := listMean (g.map (fun s => s.energy_feasibility))
    low_trust_flag := lowTrustHeuristic cfg mu_avg fz_avg
    sample_count := g.length }

/-- Modelled from the spec: `build_toe_trust_summary` of the Trust
Aggregator (module absent from the snapshot): group the ordered scores
by `candidate_id`, in insertion order of first appearance, and emit one
`ToeTrustSummary` per appearing candidate. -/
def build_toe_trust_summary (cfg : TrustConfig)
    (scores : List ScenarioScore) : List ToeTrustSummary :=
  (insertionOrder (scores.map (fun s => s.candidate_id))).map
    (summarize cfg scores)

/-- A certification axis: a named scalar in `[0,1]` with a weight. -/
structure OmegaAxis where
  name : String
  value : ℚ
  weight : ℚ
deriving Repr, DecidableEq

/-- The failure mode of the Omega Merger. -/
inductive OmegaMergeError where
  | InvalidAxisWeightsError
deriving Repr, DecidableEq

/-- The `simuniverse_consistency` axis at a given value and configured
weight. -/
def simAxisFor (value weight : ℚ) : OmegaAxis :=
  { name := "simuniverse_consistency", value := value, weight := weight }

/-- Insert the axis if its name is absent, otherwise replace the axis of
the same name. -/
def insertOrReplaceAxis (axes : List OmegaAxis) (ax : OmegaAxis) :
    List OmegaAxis :=
  if axes.any (fun a => a.name == ax.name) then
    axes.map (fun a => if a.name == ax.name then ax else a)
  else axes ++ [ax]

/-- The pre- or post-renormalization total of the axis weights. -/
def totalWeight (axes : List OmegaAxis) : ℚ :=
  (axes.map (fun a => a.weight)).sum

/-- Each axis weight divided by the total weight. -/
def renormalizeAxes (axes : List OmegaAxis) : List OmegaAxis :=
  axes.map (fun a => { a with weight := a.weight / totalWeight axes })

/-- `omega_total`: the weighted sum of axis values. -/
def omegaTotalOf (axes : List OmegaAxis) : ℚ :=
  (axes.map (fun a => a.weight * a.value)).sum

/-- Modelled from the spec: the Omega Merger
(`rex/sidrce/omega_simuniverse_integration.py` is absent from the
snapshot): insert or replace the `simuniverse_consistency` axis in the
base axis set, renormalize all axis weights to sum to 1, and recompute
`omega_total`; fails with `InvalidAxisWeightsError` when a supplied
weight is negative or the pre-renormalization total is zero. -/
def merge_simuniverse_axis (baseAxes : List OmegaAxis)
    (simValue simWeight : ℚ) : Except OmegaMergeError (List OmegaAxis × ℚ) :=
  if (∃ a ∈ insertOrReplaceAxis baseAxes (simAxisFor simValue simWeight),
        a.weight < 0) ∨
      totalWeight (insertOrReplaceAxis baseAxes
        (simAxisFor simValue simWeight)) = 0 then
    .error .InvalidAxisWeightsError
  else
    .ok (renormalizeAxes (insertOrReplaceAxis baseAxes
          (simAxisFor simValue simWeight)),
      omegaTotalOf (renormalizeAxes (insertOrReplaceAxis baseAxes
        (simAxisFor simValue simWeight))))

/-- The base axis set of the renormalization test case
(`{safety:0.5, robustness:0.5}`, values taken from the README example). -/
def sampleBaseAxes : List OmegaAxis :=
  [{ name := "safety", value := 0.91, weight := 0.5 },
   { name := "robustness", value := 0.87, weight := 0.5 }]

/-- The four discrete certification levels of `ui/types.ts`. -/
inductive OmegaLevel where
  | omega0
  | omega1
  | omega2
  | omega3
deriving DecidableEq, Repr

/-- Modelled from the spec: the mapping of `omega_total` to the discrete
`omega_level` with the reference thresholds (the Python module building
the Omega report is absent from the snapshot): Ω-3 for totals at least
0.90, Ω-2 at least 0.82, Ω-1 at least 0.70, and Ω-0 otherwise. -/
def omegaLevelOf (t : ℚ) : OmegaLevel :=
  if t ≥ 0.90 then .omega3
  else if t ≥ 0.82 then .omega2
  else if t ≥ 0.70 then .omega1
  else .omega0

/-- Lifecycle states of a registry entry. -/
inductive RunStatus where
  | pending
  | running
  | succeeded
  | failed
deriving DecidableEq, Repr

/-- A registry entry keyed by `run_id`. -/
structure RunRecord where
  run_id : String
  environment : String
  git_sha : String
  status : RunStatus
deriving DecidableEq, Repr

/-- The registry conflict failure of run creation. -/
inductive RegistryError where
  | DuplicateRunError
deriving DecidableEq, Repr

/-- Modelled from the spec: run creation in the Run Registry
(`rex/sim_universe/registry.py` is absent from the snapshot):
create-if-absent keyed by `run_id`; a duplicate `run_id` fails with
`DuplicateRunError` unless the existing record is still `pending`, in
which case the existing record is returned unchanged (idempotent retry). -/
def createRun (registry : List RunRecord) (rec : RunRecord) :
    Except RegistryError (List RunRecord × RunRecord) :=
  match registry.find? (fun r => r.run_id == rec.run_id) with
  | some existing =>
    if existing.status = .pending then .ok (registry, existing)
    else .error .DuplicateRunError
  | none => .ok (registry ++ [rec], rec)

/-- The role of an evidence link (`ui/types.ts`). -/
inductive EvidenceRole where
  | support
  | contest
  | context
deriving DecidableEq, Repr

/-- An evidence link of `ui/types.ts`. -/
structure EvidenceLink where
  claim_id : String
  paper_id : String
  role : EvidenceRole
  weight : ℚ
  claim_summary : String
  paper_title : String
  section_label : Option String
  location_hint : Option String
deriving DecidableEq, Repr

/-- A per-(candidate, world) scenario of `ui/types.ts`. -/
structure ToeScenario where
  toe_candidate_id : String
  world_id : String
  mu_score : ℚ
  faizal_score : ℚ
  coverage_alg : ℚ
  mean_undecidability_index : ℚ
  energy_feasibility : ℚ
  rg_phase_index : ℚ
  rg_halting_indicator : ℚ
  evidence : List EvidenceLink
deriving DecidableEq, Repr

/-- The heatmap payload of `ui/types.ts`; the `scenarios` record is a
string-keyed map embedded as an association list. -/
structure HeatmapData where
  toe_candidates : List String
  world_ids : List String
  mu_scores : List (List ℚ)
  faizal_scores : List (List ℚ)
  scenarios : List (String × ToeScenario)
deriving DecidableEq, Repr

/-- `keyFor` of `ui/SimUniverseHeatmap.tsx`. -/
def keyFor (toe world : String) : String :=
  toe ++ "::" ++ world

/-- What a heatmap cell renders: a dash placeholder or a value cell with
the scenario metrics. -/
inductive HeatmapCell where
  | dash
  | cell (displayValue undec energy : ℚ)
deriving DecidableEq, Repr

/-- The body of the cell loop of `HeatmapTable`
(`ui/SimUniverseHeatmap.tsx`, lines 66 to 101): a missing scenario under
the key renders a dash, otherwise the cell shows `values[i]?.[j] ?? 0.0`
with the scenario metrics. -/
def renderHeatmapCell (scenarios : List (String × ToeScenario))
    (values : List (List ℚ)) (toe world : String) (i j : ℕ) : HeatmapCell :=
  match scenarios.lookup (keyFor toe world) with
  | none => .dash
  | some scenario =>
    .cell ((values[i]?.bind (fun row => row[j]?)).getD 0)
      scenario.mean_undecidability_index scenario.energy_feasibility

/-- The two color ramps of `HeatmapTable`. -/
inductive HeatColor where
  | cyan
  | rose
deriving DecidableEq, Repr

/-- An rgba color with a rational alpha component. -/
structure RGBA where
  r : ℕ
  g : ℕ
  b : ℕ
  alpha : ℚ
deriving DecidableEq, Repr

/-- Rounding to three decimal places, the `toFixed(3)` formatting of the
shade (halves round up, matching `round` on the positive shades that
occur here). -/
def toFixed3 (x : ℚ) : ℚ :=
  (round (x * 1000) : ℚ) / 1000

/-- `toColor` of `HeatmapTable` (`ui/SimUniverseHeatmap.tsx`, lines 40 to
45): the shade `0.15 + 0.6 * clamp(value, 0, 1)` is formatted with
`toFixed(3)` and becomes the alpha of the cyan or rose background color. -/
def toColor (color : HeatColor) (value : ℚ) : RGBA :=
  let shade := 0.15 + 0.6 * max 0 (min 1 value)
  match color with
  | .cyan => { r := 6, g := 182, b := 212, alpha := toFixed3 shade }
  | .rose => { r := 244, g := 63, b := 94, alpha := toFixed3 shade }

/-- What the evidence section of `DetailPanel` renders. -/
inductive EvidencePanel where
  | noEvidenceMessage
  | entries (links : List EvidenceLink)
deriving DecidableEq, Repr

/-- The evidence section of `DetailPanel` (`ui/SimUniverseHeatmap.tsx`,
lines 142 to 169): the fixed no-evidence message when the evidence list
is empty, otherwise `evidence.slice(0, 5)`. -/
def detailEvidence (scenario : ToeScenario) : EvidencePanel :=
  if scenario.evidence.length = 0 then .noEvidenceMessage
  else .entries (scenario.evidence.take 5)

/-- A pending registry record used by the idempotent-retry test. -/
def pendingRun : RunRecord :=
  { run_id := "run-1", environment := "prod", git_sha := "abc",
    status := .pending }

/-- The same registry record after a successful run. -/
def succeededRun : RunRecord :=
  { pendingRun with status := .succeeded }

/-- A retry of the creation of `run-1` from a different checkout. -/
def retryRun : RunRecord :=
  { run_id := "run-1", environment := "prod", git_sha := "def",
    status := .pending }

/-- A sample evidence link. -/
def sampleEvidenceLink : EvidenceLink :=
  { claim_id := "c", paper_id := "p", role := .support, weight := 0.5,
    claim_summary := "s", paper_title := "t", section_label := none,
    location_hint := none }

/-- A sample scenario carrying six evidence links. -/
def sampleScenario : ToeScenario :=
  { toe_candidate_id := "toe_a", world_id := "w1", mu_score := 0.5,
    faizal_score := 0.5, coverage_alg := 0.5,
    mean_undecidability_index := 0.5, energy_feasibility := 0.5,
    rg_phase_index := 0, rg_halting_indicator := 0,
    evidence := List.replicate 6 sampleEvidenceLink }

/-- The two-candidate sample of the end-to-end scenario. -/
def sampleScores : List ScenarioScore :=
  [{ candidate_id := "toe_candidate_muh_cuh", world_id := "w1",
     mu_score := 0.82, faizal_score := 0.28,
     mean_undecidability_index := 0.32, energy_feasibility := 0.91 },
   { candidate_id := "toe_candidate_faizal_mtoe", world_id := "w1",
     mu_score := 0.24, faizal_score := 0.86,
     mean_undecidability_index := 0.81, energy_feasibility := 0.18 }]

end SimUniverse

namespace SimUniverse

lemma mem_insertionOrder {c : String} :
    ∀ {l : List String}, c ∈ insertionOrder l ↔ c ∈ l := by
  intro l
  induction l with
  | nil => simp [insertionOrder]
  | cons c' rest ih =>
    by_cases hc : c = c' <;>
      simp [insertionOrder, List.mem_filter, hc, ih]

lemma insertionOrder_nodup : ∀ l : List String, (insertionOrder l).Nodup := by
  intro l
  induction l with
  | nil => simp [insertionOrder]
  | cons c rest ih =>
    refine List.Nodup.cons ?_ (List.Nodup.filter _ ih)
    simp [List.mem_filter]

lemma insertionOrder_pairwise :
    ∀ l : List String,
      (insertionOrder l).Pairwise (fun c d => l.indexOf c < l.indexOf d) := by
  intro l
  induction l with
  | nil => simp [insertionOrder]
  | cons c rest ih =>
    refine List.Pairwise.cons ?_ ?_
    · intro d hd
      have hne : d ≠ c := by
        have := (List.mem_filter.mp hd).2
        simpa using this
      rw [List.indexOf_cons_self, List.indexOf_cons_ne rest hne.symm]
      exact Nat.succ_pos _
    · have hfil := List.Pairwise.filter (fun d => d != c) ih
      refine List.Pairwise.imp_of_mem ?_ hfil
      intro a b ha hb hab
      have hanec : a ≠ c := by
        have := (List.mem_filter.mp ha).2
        simpa using this
      have hbnec : b ≠ c := by
        have := (List.mem_filter.mp hb).2
        simpa using this
      rw [List.indexOf_cons_ne rest hanec.symm, List.indexOf_cons_ne rest hbnec.symm]
      exact Nat.succ_lt_succ hab

lemma listMean_bounds {xs : List ℚ} (hne : xs ≠ [])
    (h : ∀ x ∈ xs, 0 ≤ x ∧ x ≤ 1) :
    0 ≤ listMean xs ∧ listMean xs ≤ 1 := by
  have hlen : (0 : ℚ) < xs.length := by
    have := List.length_pos.mpr hne
    exact_mod_cast this
  have hsum0 : 0 ≤ xs.sum := List.sum_nonneg fun x hx => (h x hx).1
  have hsum1 : xs.sum ≤ xs.length := by
    have := List.sum_le_card_nsmul xs 1 fun x hx => (h x hx).2
    simpa using this
  constructor
  · exact div_nonneg hsum0 hlen.le
  · rw [listMean, div_le_one hlen]
    exact hsum1

lemma summarize_perm (cfg : TrustConfig) {l₁ l₂ : List ScenarioScore}
    (h : l₁.Perm l₂) (cid : String) :
    summarize cfg l₁ cid = summarize cfg l₂ cid := by
  have hg : (groupFor l₁ cid).Perm (groupFor l₂ cid) := h.filter _
  have hmean : ∀ f : ScenarioScore → ℚ,
      listMean ((groupFor l₁ cid).map f) = listMean ((groupFor l₂ cid).map f) := by
    intro f
    rw [listMean, listMean, (hg.map f).sum_eq, List.length_map, List.length_map,
      hg.length_eq]
  simp only [summarize, hmean, hg.length_eq]

lemma mem_output_summarize {cfg : TrustConfig}
    {scores : List ScenarioScore} {ts : ToeTrustSummary}
    (hts : ts ∈ build_toe_trust_summary cfg scores) :
    ts = summarize cfg scores ts.candidate_id ∧
      groupFor scores ts.candidate_id ≠ [] := by
  obtain ⟨cid, hcid, rfl⟩ := List.mem_map.mp hts
  have hcid2 : cid ∈ scores.map (fun s => s.candidate_id) :=
    mem_insertionOrder.mp hcid
  obtain ⟨s, hs, hseq⟩ := List.mem_map.mp hcid2
  refine ⟨rfl, ?_⟩
  have hmem : s ∈ groupFor scores cid := by
    rw [groupFor, List.mem_filter]
    exact ⟨hs, by simp [hseq]⟩
  intro hnil
  have hcand : (summarize cfg scores cid).candidate_id = cid := rfl
  rw [hcand] at hnil
  rw [hnil] at hmem
  exact List.not_mem_nil s hmem

lemma summarize_candidate_id (cfg : TrustConfig) (scores : List ScenarioScore)
    (cid : String) : (summarize cfg scores cid).candidate_id = cid := rfl

lemma summarize_fields (cfg : TrustConfig) (scores : List ScenarioScore)
    (cid : String) :
    (summarize cfg scores cid).mu_score_avg =
      listMean ((groupFor scores cid).map (fun s => s.mu_score)) ∧
    (summarize cfg scores cid).faizal_score_avg =
      listMean ((groupFor scores cid).map (fun s => s.faizal_score)) ∧
    (summarize cfg scores cid).undecidability_avg =
      listMean ((groupFor scores cid).map (fun s => s.mean_undecidability_index)) ∧
    (summarize cfg scores cid).energy_feasibility_avg =
      listMean ((groupFor scores cid).map (fun s => s.energy_feasibility)) :=
  ⟨rfl, rfl, rfl, rfl⟩

lemma groupFor_avg_bounds {scores : List ScenarioScore} {c : String}
    (hne : groupFor scores c ≠ []) (f : ScenarioScore → ℚ)
    (hf : ∀ s ∈ scores, 0 ≤ f s ∧ f s ≤ 1) :
    0 ≤ listMean ((groupFor scores c).map f) ∧
      listMean ((groupFor scores c).map f) ≤ 1 := by
  apply listMean_bounds
  · simpa using hne
  · intro x hx
    obtain ⟨s, hs, rfl⟩ := List.mem_map.mp hx
    have hs2 : s ∈ scores := by
      have h2 : s ∈ scores ∧ s.candidate_id = c := by simpa [groupFor] using hs
      exact h2.1
    exact hf s hs2

lemma build_map_candidate_id (cfg : TrustConfig) (scores : List ScenarioScore) :
    (build_toe_trust_summary cfg scores).map (fun ts => ts.candidate_id) =
      insertionOrder (scores.map (fun s => s.candidate_id)) := by
  rw [build_toe_trust_summary, List.map_map]
  have : ((fun ts : ToeTrustSummary => ts.candidate_id) ∘ summarize cfg scores)
      = fun cid => cid := rfl
  rw [this]
  exact List.map_id _

/-- C1: every summary emitted by the Trust Aggregator comes from a
non-empty candidate group, its four averages equal the arithmetic means of
the corresponding input fields and lie in `[0,1]` when all inputs do; the
per-candidate aggregation is invariant under any permutation of the input
records; the output candidate order is the insertion order of first
appearance (duplicate-free and sorted by index of first occurrence); and a
candidate appears in the output exactly when it contributes at least one
scenario, so a candidate with zero contributing scenarios never appears. -/
theorem trust_aggregator_spec (cfg : TrustConfig) (scores : List ScenarioScore)
    (hvalid : ∀ s ∈ scores,
      (0 ≤ s.mu_score ∧ s.mu_score ≤ 1) ∧
      (0 ≤ s.faizal_score ∧ s.faizal_score ≤ 1) ∧
      (0 ≤ s.mean_undecidability_index ∧ s.mean_undecidability_index ≤ 1) ∧
      (0 ≤ s.energy_feasibility ∧ s.energy_feasibility ≤ 1)) :
    (∀ ts ∈ build_toe_trust_summary cfg scores,
      groupFor scores ts.candidate_id ≠ [] ∧
      ts.mu_score_avg =
        listMean ((groupFor scores ts.candidate_id).map (fun s => s.mu_score)) ∧
      ts.faizal_score_avg =
        listMean ((groupFor scores ts.candidate_id).map (fun s => s.faizal_score)) ∧
      ts.undecidability_avg =
        listMean ((groupFor scores ts.candidate_id).map
          (fun s => s.mean_undecidability_index)) ∧
      ts.energy_feasibility_avg =
        listMean ((groupFor scores ts.candidate_id).map
          (fun s => s.energy_feasibility)) ∧
      (0 ≤ ts.mu_score_avg ∧ ts.mu_score_avg ≤ 1) ∧
      (0 ≤ ts.faizal_score_avg ∧ ts.faizal_score_avg ≤ 1) ∧
      (0 ≤ ts.undecidability_avg ∧ ts.undecidability_avg ≤ 1) ∧
      (0 ≤ ts.energy_feasibility_avg ∧ ts.energy_feasibility_avg ≤ 1)) ∧
    (∀ scores₂, scores.Perm scores₂ →
      ∀ cid, summarize cfg scores cid = summarize cfg scores₂ cid) ∧
    ((build_toe_trust_summary cfg scores).map (fun ts => ts.candidate_id) =
      insertionOrder (scores.map (fun s => s.candidate_id))) ∧
    ((build_toe_trust_summary cfg scores).map (fun ts => ts.candidate_id)).Nodup ∧
    ((build_toe_trust_summary cfg scores).map
        (fun ts => ts.candidate_id)).Pairwise
      (fun c d => (scores.map (fun s => s.candidate_id)).indexOf c <
        (scores.map (fun s => s.candidate_id)).indexOf d) ∧
    (∀ c, c ∈ (build_toe_trust_summary cfg scores).map
        (fun ts => ts.candidate_id) ↔ ∃ s ∈ scores, s.candidate_id = c) := by
  refine ⟨?_, fun scores₂ h cid => summarize_perm cfg h cid,
    build_map_candidate_id cfg scores, ?_, ?_, ?_⟩
  · intro ts hts
    obtain ⟨hts_eq, hne⟩ := mem_output_summarize hts
    obtain ⟨hmu, hfz, hud, hef⟩ :=
      summarize_fields cfg scores ts.candidate_id
    refine ⟨hne, ?_, ?_, ?_, ?_, ?_, ?_, ?_, ?_⟩
    · rw [hts_eq] at hmu ⊢; exact hmu
    · rw [hts_eq] at hfz ⊢; exact hfz
    · rw [hts_eq] at hud ⊢; exact hud
    · rw [hts_eq] at hef ⊢; exact hef
    · rw [hts_eq, hmu]
      exact groupFor_avg_bounds hne _ fun s hs => (hvalid s hs).1
    · rw [hts_eq, hfz]
      exact groupFor_avg_bounds hne _ fun s hs => (hvalid s hs).2.1
    · rw [hts_eq, hud]
      exact groupFor_avg_bounds hne _ fun s hs => (hvalid s hs).2.2.1
    · rw [hts_eq, hef]
      exact groupFor_avg_bounds hne _ fun s hs => (hvalid s hs).2.2.2
  · rw [build_map_candidate_id cfg scores]
    exact insertionOrder_nodup _
  · rw [build_map_candidate_id cfg scores]
    exact insertionOrder_pairwise _
  · intro c
    rw [build_map_candidate_id cfg scores, mem_insertionOrder, List.mem_map]

/-- Witness for C1 at the two-candidate sample input. -/
theorem trust_aggregator_spec_witness :
    (build_toe_trust_summary defaultTrustConfig sampleScores).map
        (fun ts => ts.candidate_id) =
      insertionOrder (sampleScores.map (fun s => s.candidate_id)) := by
  have h := trust_aggregator_spec defaultTrustConfig sampleScores ?_
  · exact h.2.2.1
  · intro s hs
    fin_cases hs <;> norm_num [sampleScores]

/-- C3: `compute_trust_tier_from_failures` returns `low` whenever
`failure_count ≥ failure_threshold`, overriding `prev_tier`; returns
`prev_tier` unchanged below the threshold; on `failure_threshold = 3`,
`prev_tier = normal` the count sequence `[0,1,2,3,4]` yields
`[normal, normal, normal, low, low]`; and the tier is a one-way ratchet:
a call starting from `low` returns `low` for every count, so dropping the
count never reverts the tier. -/
theorem compute_trust_tier_spec (prev_tier : TrustTier)
    (failure_count failure_threshold : ℕ) :
    (failure_count ≥ failure_threshold →
      compute_trust_tier_from_failures prev_tier failure_count
        failure_threshold = .low) ∧
    (failure_count < failure_threshold →
      compute_trust_tier_from_failures prev_tier failure_count
        failure_threshold = prev_tier) ∧
    compute_trust_tier_from_failures .low failure_count failure_threshold
      = .low ∧
    [0, 1, 2, 3, 4].map
        (fun n => compute_trust_tier_from_failures .normal n 3) =
      [.normal, .normal, .normal, .low, .low] := by
  refine ⟨fun h => ?_, fun h => ?_, ?_, by decide⟩
  · simp [compute_trust_tier_from_failures, h]
  · simp [compute_trust_tier_from_failures, Nat.not_le.mpr h]
  · unfold compute_trust_tier_from_failures
    split <;> rfl

/-- Witness for C3 at `prev_tier = normal`, counts 4 and 1, threshold 3. -/
theorem compute_trust_tier_spec_witness :
    compute_trust_tier_from_failures .normal 4 3 = .low ∧
    compute_trust_tier_from_failures .normal 1 3 = .normal :=
  ⟨(compute_trust_tier_spec .normal 4 3).1 (by decide),
   (compute_trust_tier_spec .normal 1 3).2.1 (by decide)⟩

/-- C4: `simuniverse_quality(mu, faizal)` equals `0.7*mu + 0.3*(1-faizal)`,
lies in `[0,1]` for inputs in `[0,1]`, is monotone non-decreasing in `mu`,
non-increasing in `faizal`, and `simuniverse_quality 0.82 0.28 = 0.790`. -/
theorem simuniverse_quality_spec (mu faizal : ℚ)
    (hmu0 : 0 ≤ mu) (hmu1 : mu ≤ 1) (hf0 : 0 ≤ faizal) (hf1 : faizal ≤ 1) :
    simuniverse_quality mu faizal = 0.7 * mu + 0.3 * (1 - faizal) ∧
    0 ≤ simuniverse_quality mu faizal ∧
    simuniverse_quality mu faizal ≤ 1 ∧
    (∀ mu₂, mu ≤ mu₂ →
      simuniverse_quality mu faizal ≤ simuniverse_quality mu₂ faizal) ∧
    (∀ f₂, faizal ≤ f₂ →
      simuniverse_quality mu f₂ ≤ simuniverse_quality mu faizal) ∧
    simuniverse_quality 0.82 0.28 = 0.790 := by
  refine ⟨rfl, ?_, ?_, ?_, ?_, by norm_num [simuniverse_quality]⟩
  · unfold simuniverse_quality; nlinarith
  · unfold simuniverse_quality; nlinarith
  · intro mu₂ h; unfold simuniverse_quality; nlinarith
  · intro f₂ h; unfold simuniverse_quality; nlinarith

/-- Witness for C4 at `mu = 0.82`, `faizal = 0.28`. -/
theorem simuniverse_quality_spec_witness :
    simuniverse_quality 0.82 0.28 = 0.790 :=
  (simuniverse_quality_spec 0.82 0.28 (by norm_num) (by norm_num)
    (by norm_num) (by norm_num)).2.2.2.2.2

lemma insertOrReplaceAxis_weight_nonneg {axes : List OmegaAxis}
    {ax : OmegaAxis} (hb : ∀ a ∈ axes, 0 ≤ a.weight) (hax : 0 ≤ ax.weight) :
    ∀ a ∈ insertOrReplaceAxis axes ax, 0 ≤ a.weight := by
  intro a ha
  unfold insertOrReplaceAxis at ha
  split at ha
  · obtain ⟨b, hb2, hbeq⟩ := List.mem_map.mp ha
    by_cases hname : b.name == ax.name
    · rw [if_pos hname] at hbeq
      rw [← hbeq]; exact hax
    · rw [if_neg hname] at hbeq
      rw [← hbeq]; exact hb b hb2
  · rcases List.mem_append.mp ha with h | h
    · exact hb a h
    · rw [List.mem_singleton.mp h]; exact hax

lemma totalWeight_renormalize {axes : List OmegaAxis}
    (h : totalWeight axes ≠ 0) : totalWeight (renormalizeAxes axes) = 1 := by
  have hcomp : totalWeight (renormalizeAxes axes) =
      ((axes.map (fun a => a.weight)).map
        (fun w => w * (totalWeight axes)⁻¹)).sum := by
    unfold totalWeight renormalizeAxes
    rw [List.map_map, List.map_map]
    congr 1
  rw [hcomp, List.sum_map_mul_right]
  have hid : (axes.map (fun a => a.weight)).map (fun w => w) =
      axes.map (fun a => a.weight) := List.map_id _
  rw [hid, show ((axes.map (fun a => a.weight)).sum = totalWeight axes) from rfl]
  exact mul_inv_cancel₀ h

lemma sample_inserted_totalWeight :
    totalWeight (insertOrReplaceAxis sampleBaseAxes (simAxisFor 0.77 0.15)) =
      1.15 := by
  have hins : insertOrReplaceAxis sampleBaseAxes (simAxisFor 0.77 0.15) =
      sampleBaseAxes ++ [simAxisFor 0.77 0.15] := by
    unfold insertOrReplaceAxis
    rw [if_neg (by decide)]
  rw [hins]
  simp only [totalWeight, sampleBaseAxes, simAxisFor, List.map_append,
    List.map_cons, List.map_nil, List.sum_append, List.sum_cons, List.sum_nil]
  norm_num

/-- C2: for a base axis set with non-negative weights whose total after
inserting the `simuniverse_consistency` axis is positive, the merge
succeeds, the renormalized weights sum to exactly 1 (hence within 1e-9),
and `omega_total` is the weighted sum of axis values under the
renormalized weights; in the concrete case of base axes
`{safety:0.5, robustness:0.5}` with the axis at weight 0.15, the three
renormalized weights sum to 1 within 1e-9 and `omega_total` equals the
weighted sum. -/
theorem omega_merger_spec (baseAxes : List OmegaAxis) (simValue simWeight : ℚ)
    (hb : ∀ a ∈ baseAxes, 0 ≤ a.weight) (hsw : 0 ≤ simWeight)
    (hpos : 0 < totalWeight (insertOrReplaceAxis baseAxes
      (simAxisFor simValue simWeight))) :
    (merge_simuniverse_axis baseAxes simValue simWeight =
      .ok (renormalizeAxes (insertOrReplaceAxis baseAxes
          (simAxisFor simValue simWeight)),
        omegaTotalOf (renormalizeAxes (insertOrReplaceAxis baseAxes
          (simAxisFor simValue simWeight)))) ∧
      totalWeight (renormalizeAxes (insertOrReplaceAxis baseAxes
        (simAxisFor simValue simWeight))) = 1 ∧
      |totalWeight (renormalizeAxes (insertOrReplaceAxis baseAxes
        (simAxisFor simValue simWeight))) - 1| ≤ 1e-9 ∧
      omegaTotalOf (renormalizeAxes (insertOrReplaceAxis baseAxes
          (simAxisFor simValue simWeight))) =
        ((renormalizeAxes (insertOrReplaceAxis baseAxes
          (simAxisFor simValue simWeight))).map
            (fun a => a.weight * a.value)).sum) ∧
    (totalWeight (renormalizeAxes (insertOrReplaceAxis sampleBaseAxes
        (simAxisFor 0.77 0.15))) = 1 ∧
      |totalWeight (renormalizeAxes (insertOrReplaceAxis sampleBaseAxes
        (simAxisFor 0.77 0.15))) - 1| ≤ 1e-9 ∧
      omegaTotalOf (renormalizeAxes (insertOrReplaceAxis sampleBaseAxes
          (simAxisFor 0.77 0.15))) =
        ((renormalizeAxes (insertOrReplaceAxis sampleBaseAxes
          (simAxisFor 0.77 0.15))).map (fun a => a.weight * a.value)).sum) := by
  have hne : totalWeight (insertOrReplaceAxis baseAxes
      (simAxisFor simValue simWeight)) ≠ 0 := ne_of_gt hpos
  have hnn : ∀ a ∈ insertOrReplaceAxis baseAxes
      (simAxisFor simValue simWeight), 0 ≤ a.weight :=
    insertOrReplaceAxis_weight_nonneg hb hsw
  have hsum := totalWeight_renormalize hne
  have hsample : totalWeight (renormalizeAxes (insertOrReplaceAxis
      sampleBaseAxes (simAxisFor 0.77 0.15))) = 1 := by
    apply totalWeight_renormalize
    rw [sample_inserted_totalWeight]
    norm_num
  refine ⟨⟨?_, hsum, ?_, rfl⟩, hsample, ?_, rfl⟩
  · unfold merge_simuniverse_axis
    rw [if_neg]
    push_neg
    exact ⟨fun a ha => hnn a ha, hne⟩
  · rw [hsum]; norm_num
  · rw [hsample]; norm_num

/-- Witness for C2 at the sample base axes with the sim axis at weight
0.15 and value 0.77. -/
theorem omega_merger_spec_witness :
    totalWeight (renormalizeAxes (insertOrReplaceAxis sampleBaseAxes
      (simAxisFor 0.77 0.15))) = 1 := by
  have h := omega_merger_spec sampleBaseAxes 0.77 0.15 ?_ (by norm_num) ?_
  · exact h.2.1
  · intro a ha
    fin_cases ha <;> norm_num [sampleBaseAxes]
  · rw [sample_inserted_totalWeight]
    norm_num

/-- C6: creating a run whose `run_id` already exists while the existing
record is `pending` returns the same record with the registry unchanged
(no duplicate entry), and creating one whose existing record is
`succeeded` fails with `DuplicateRunError`. -/
theorem run_registry_spec (registry : List RunRecord) (rec existing : RunRecord)
    (hfind : registry.find? (fun r => r.run_id == rec.run_id) = some existing) :
    (existing.status = .pending →
      createRun registry rec = .ok (registry, existing)) ∧
    (existing.status = .succeeded →
      createRun registry rec = .error .DuplicateRunError) := by
  constructor <;> intro h <;> simp [createRun, hfind, h]

/-- Witness for C6 on a one-record registry tried twice, once with a
pending and once with a succeeded existing record. -/
theorem run_registry_spec_witness :
    createRun [pendingRun] retryRun = .ok ([pendingRun], pendingRun) ∧
    createRun [succeededRun] retryRun = .error .DuplicateRunError :=
  ⟨(run_registry_spec [pendingRun] retryRun pendingRun (by decide)).1 rfl,
   (run_registry_spec [succeededRun] retryRun succeededRun (by decide)).2 rfl⟩

/-- C7: the mapping from `omega_total` to `omega_level` is total and
gapless: with the reference thresholds, a total of at least 0.90 maps to
Ω-3, at least 0.82 and below 0.90 to Ω-2, at least 0.70 and below 0.82 to
Ω-1, anything below 0.70 to Ω-0, and every total in `[0,1]` maps to
exactly one level. -/
theorem omega_level_spec (t : ℚ) (h0 : 0 ≤ t) (h1 : t ≤ 1) :
    (0.90 ≤ t → omegaLevelOf t = .omega3) ∧
    (0.82 ≤ t ∧ t < 0.90 → omegaLevelOf t = .omega2) ∧
    (0.70 ≤ t ∧ t < 0.82 → omegaLevelOf t = .omega1) ∧
    (t < 0.70 → omegaLevelOf t = .omega0) ∧
    (∃! lvl : OmegaLevel, omegaLevelOf t = lvl) := by
  refine ⟨fun h => ?_, fun h => ?_, fun h => ?_, fun h => ?_,
    ⟨omegaLevelOf t, rfl, fun lvl hlvl => hlvl.symm⟩⟩
  · simp only [omegaLevelOf]
    rw [if_pos h]
  · simp only [omegaLevelOf]
    rw [if_neg (by exact not_le.mpr h.2), if_pos h.1]
  · simp only [omegaLevelOf]
    rw [if_neg (by exact not_le.mpr (by linarith [h.2])),
      if_neg (by exact not_le.mpr h.2), if_pos h.1]
  · simp only [omegaLevelOf]
    rw [if_neg (by exact not_le.mpr (by linarith)),
      if_neg (by exact not_le.mpr (by linarith)),
      if_neg (by exact not_le.mpr h)]

/-- Witness for C7 at `omega_total = 0.85`. -/
theorem omega_level_spec_witness : omegaLevelOf 0.85 = .omega2 :=
  (omega_level_spec 0.85 (by norm_num) (by norm_num)).2.1
    ⟨by norm_num, by norm_num⟩

/-- C8: the heatmap cell rendering is total: a (toe, world) pair with no
scenario under the key `toe::world` renders a dash placeholder, and when
a scenario exists but `values[i][j]` is absent the displayed value
defaults to 0.0 (and in general the cell shows `values[i]?.[j] ?? 0.0`). -/
theorem heatmap_cell_spec (scenarios : List (String × ToeScenario))
    (values : List (List ℚ)) (toe world : String) (i j : ℕ) :
    (scenarios.lookup (keyFor toe world) = none →
      renderHeatmapCell scenarios values toe world i j = .dash) ∧
    (∀ sc, scenarios.lookup (keyFor toe world) = some sc →
      (values[i]?.bind (fun row => row[j]?)) = none →
      renderHeatmapCell scenarios values toe world i j =
        .cell 0 sc.mean_undecidability_index sc.energy_feasibility) ∧
    (∀ sc, scenarios.lookup (keyFor toe world) = some sc →
      renderHeatmapCell scenarios values toe world i j =
        .cell ((values[i]?.bind (fun row => row[j]?)).getD 0)
          sc.mean_undecidability_index sc.energy_feasibility) := by
  refine ⟨fun hnone => ?_, fun sc hsc habsent => ?_, fun sc hsc => ?_⟩
  · unfold renderHeatmapCell
    rw [hnone]
  · unfold renderHeatmapCell
    rw [hsc, habsent]
    rfl
  · unfold renderHeatmapCell
    rw [hsc]

/-- Witness for C8 on a one-scenario payload with an empty values matrix
and a missing key. -/
theorem heatmap_cell_spec_witness :
    renderHeatmapCell [] [] "toe_a" "w1" 0 0 = .dash := by
  have h := heatmap_cell_spec [] [] "toe_a" "w1" 0 0
  exact h.1 rfl

lemma toFixed3_mono {x y : ℚ} (h : x ≤ y) : toFixed3 x ≤ toFixed3 y := by
  unfold toFixed3
  have hr : round (x * 1000) ≤ round (y * 1000) := by
    rw [round_eq, round_eq]
    exact Int.floor_le_floor (by linarith)
  have hc : ((round (x * 1000) : ℤ) : ℚ) ≤ ((round (y * 1000) : ℤ) : ℚ) := by
    exact_mod_cast hr
  exact div_le_div_of_nonneg_right hc (by norm_num)

lemma toFixed3_at_015 : toFixed3 0.15 = 0.15 := by
  unfold toFixed3
  rw [show (0.15 : ℚ) * 1000 = ((150 : ℤ) : ℚ) by norm_num, round_intCast]
  norm_num

lemma toFixed3_at_075 : toFixed3 0.75 = 0.75 := by
  unfold toFixed3
  rw [show (0.75 : ℚ) * 1000 = ((750 : ℤ) : ℚ) by norm_num, round_intCast]
  norm_num

/-- C9 counterexample: at cell value 0.1234 the exact shade is
`0.15 + 0.6 * 0.1234 = 0.22404`, but the rendered alpha is the
`toFixed(3)` rounding 0.224, so the alpha does not equal
`0.15 + 0.6 * clamp(value, 0, 1)` for every numeric value. -/
theorem toColor_alpha_counterexample :
    (toColor .cyan 0.1234).alpha ≠
      0.15 + 0.6 * max 0 (min 1 (0.1234 : ℚ)) := by
  have hclamp : max 0 (min 1 (0.1234 : ℚ)) = 0.1234 := by norm_num
  have halpha : (toColor .cyan 0.1234).alpha = toFixed3 0.22404 := by
    show toFixed3 (0.15 + 0.6 * max 0 (min 1 (0.1234 : ℚ))) =
      toFixed3 0.22404
    rw [hclamp]
    norm_num
  have hfloor : ⌊(224.54 : ℚ)⌋ = 224 :=
    Int.floor_eq_iff.mpr ⟨by norm_num, by norm_num⟩
  have hfix : toFixed3 0.22404 = 0.224 := by
    unfold toFixed3
    rw [show (0.22404 : ℚ) * 1000 = 224.04 by norm_num, round_eq,
      show (224.04 : ℚ) + 1 / 2 = 224.54 by norm_num, hfloor]
    norm_num
  rw [halpha, hfix, hclamp]
  norm_num

/-- C9 (amended): the alpha component of the `toColor` background equals
the `toFixed(3)` three-decimal rounding of `0.15 + 0.6 * clamp(value, 0, 1)`
for every numeric value, hence always lies in `[0.15, 0.75]`, and is
monotone non-decreasing in the cell value. -/
theorem toColor_alpha_spec (color : HeatColor) (value : ℚ) :
    (toColor color value).alpha =
      toFixed3 (0.15 + 0.6 * max 0 (min 1 value)) ∧
    0.15 ≤ (toColor color value).alpha ∧
    (toColor color value).alpha ≤ 0.75 ∧
    (∀ v₂, value ≤ v₂ →
      (toColor color value).alpha ≤ (toColor color v₂).alpha) := by
  have halpha : ∀ v : ℚ,
      (toColor color v).alpha = toFixed3 (0.15 + 0.6 * max 0 (min 1 v)) := by
    intro v
    cases color <;> rfl
  have hshade_lo : ∀ v : ℚ, 0.15 ≤ 0.15 + 0.6 * max 0 (min 1 v) := by
    intro v
    nlinarith [le_max_left (0 : ℚ) (min 1 v)]
  have hshade_hi : ∀ v : ℚ, 0.15 + 0.6 * max 0 (min 1 v) ≤ 0.75 := by
    intro v
    have h1 : max 0 (min 1 v) ≤ 1 := max_le (by norm_num) (min_le_left 1 v)
    nlinarith
  refine ⟨halpha value, ?_, ?_, ?_⟩
  · rw [halpha value]
    calc (0.15 : ℚ) = toFixed3 0.15 := toFixed3_at_015.symm
      _ ≤ toFixed3 (0.15 + 0.6 * max 0 (min 1 value)) :=
        toFixed3_mono (hshade_lo value)
  · rw [halpha value]
    calc toFixed3 (0.15 + 0.6 * max 0 (min 1 value)) ≤ toFixed3 0.75 :=
        toFixed3_mono (hshade_hi value)
      _ = 0.75 := toFixed3_at_075
  · intro v₂ hv
    rw [halpha value, halpha v₂]
    apply toFixed3_mono
    have hmin : min 1 value ≤ min 1 v₂ := min_le_min le_rfl hv
    have hmax : max 0 (min 1 value) ≤ max 0 (min 1 v₂) :=
      max_le_max le_rfl hmin
    nlinarith

/-- Witness for C9 at values above the clamp range. -/
theorem toColor_alpha_spec_witness :
    (toColor .cyan 2).alpha ≤ (toColor .cyan 3).alpha :=
  (toColor_alpha_spec .cyan 2).2.2.2 3 (by norm_num)

/-- C10: `DetailPanel` renders the fixed no-evidence message exactly when
the evidence list is empty, otherwise at most the first five evidence
entries in their given order (the initial segment of length at most 5). -/
theorem detail_panel_spec (scenario : ToeScenario) :
    (detailEvidence scenario = .noEvidenceMessage ↔
      scenario.evidence = []) ∧
    (scenario.evidence ≠ [] →
      detailEvidence scenario = .entries (scenario.evidence.take 5)) ∧
    (scenario.evidence.take 5).length ≤ 5 ∧
    scenario.evidence.take 5 ++ scenario.evidence.drop 5 =
      scenario.evidence := by
  refine ⟨?_, fun hne => ?_, ?_, List.take_append_drop 5 scenario.evidence⟩
  · unfold detailEvidence
    by_cases h : scenario.evidence.length = 0
    · rw [if_pos h]
      simp [List.length_eq_zero.mp h]
    · rw [if_neg h]
      constructor
      · intro hcon; exact absurd hcon (by simp)
      · intro hnil; exact absurd (by rw [hnil]; rfl) h
  · unfold detailEvidence
    rw [if_neg (by simpa [List.length_eq_zero] using hne)]
  · exact List.length_take_le 5 scenario.evidence

/-- Witness for C10 on a scenario with six evidence links. -/
theorem detail_panel_spec_witness :
    detailEvidence sampleScenario =
      .entries (List.replicate 5 sampleEvidenceLink) := by
  have h := (detail_panel_spec sampleScenario).2.1
    (by simp [sampleScenario])
  rw [h]
  have htake : sampleScenario.evidence.take 5 =
      List.replicate 5 sampleEvidenceLink := by
    simp [sampleScenario, List.take_replicate]
  rw [htake]

/-- C5: with the default thresholds, the low-trust flag is true exactly
when `mu_score_avg < 0.4` and `faizal_score_avg > 0.7`; in particular
`(0.82, 0.28)` is not flagged and `(0.24, 0.86)` is flagged. -/
theorem lowTrustHeuristic_spec (mu_avg faizal_avg : ℚ) :
    (lowTrustHeuristic defaultTrustConfig mu_avg faizal_avg = true ↔
      mu_avg < 0.4 ∧ faizal_avg > 0.7) ∧
    lowTrustHeuristic defaultTrustConfig 0.82 0.28 = false ∧
    lowTrustHeuristic defaultTrustConfig 0.24 0.86 = true := by
  refine ⟨?_, ?_, ?_⟩
  · simp [lowTrustHeuristic, defaultTrustConfig]
  · simp [lowTrustHeuristic, defaultTrustConfig]
    norm_num
  · simp [lowTrustHeuristic, defaultTrustConfig]
    norm_num

end SimUniverse
